import Mathlib

/-!
Verification of the row-addressed document synchronization engine of
`book000/update-softwares` (`src/__init__.py`, class `GitHubIssue`).

Strings are modelled as `List Char` (`Str`).  All functions below are
shallow embeddings of the corresponding Python code:

* `pySplit1` — Python `str.split(sep)` for a one-character separator;
* `pyStrip` — Python `str.strip()`;
* `rowRegexMatch` — `re.match` of the compiled pattern
  `(?P<markdown>.*) <!-- update-softwares#(?P<computer_name>.+)#(?P<package_manager>.+) -->`
  with Python's leftmost, greedy backtracking semantics (`.` does not
  match a newline, the match is anchored at the start only);
* `getSoftwareUpdateRowsFromBody` — `_get_software_update_rows_from_body`;
* `buildUpdatedBody` — `_build_updated_body`;
* `updateSoftwareUpdateRow` — `update_software_update_row`;
* `atomicUpdateWithRetry` — `atomic_update_with_retry`, with the HTTP
  world abstracted as an `Env` of fetch and patch outcomes.
-/

abbrev Str : Type := List Char

namespace UpdateSoftwares

/-- Python whitespace predicate used by `str.strip()`. -/
def pyIsSpace (c : Char) : Bool :=
  c == ' ' || c == '\t' || c == '\n' || c == '\r' || c == '\x0b' || c == '\x0c'

/-- Python `str.strip()`: drop whitespace from both ends. -/
def pyStrip (s : Str) : Str :=
  ((s.dropWhile pyIsSpace).reverse.dropWhile pyIsSpace).reverse

/-- Python `str.split(sep)` for a single-character separator `sep`:
keeps empty pieces, `"".split(sep) = [""]`. -/
def pySplit1 (sep : Char) : Str → List Str
  | [] => [[]]
  | c :: rest =>
    if c = sep then [] :: pySplit1 sep rest
    else
      match pySplit1 sep rest with
      | [] => [[c]]
      | piece :: pieces => (c :: piece) :: pieces

/-- Python `sep.join(pieces)` for a one-character separator. -/
def pyJoin1 (sep : Char) (pieces : List Str) : Str :=
  List.intercalate [sep] pieces

/-- The literal that separates the visible cells from the address
comment in the row regex: `" <!-- update-softwares#"`. -/
def tagLit : Str := " <!-- update-softwares#".toList

/-- The literal closing the address comment: `" -->"`. -/
def arrowLit : Str := " -->".toList

/-- `s` contains no newline — the region a `.` atom may cover. -/
def noNl (s : Str) : Bool := s.all (fun c => c != '\n')

/-- Greatest `k < n` with `P k`, `none` if there is none: the
backtracking order of a greedy quantifier (longest candidate first). -/
def maxSatBelow (P : Nat → Bool) : Nat → Option Nat
  | 0 => none
  | n + 1 => if P n then some n else maxSatBelow P n

/-- Length taken by the greedy `(?P<package_manager>.+)` when the regex
engine enters it on `s`: the longest nonempty newline-free prefix that
is immediately followed by the literal `" -->"`. -/
def pmLen (s : Str) : Option Nat :=
  maxSatBelow
    (fun j => noNl (s.take (j + 1)) && arrowLit.isPrefixOf (s.drop (j + 1)))
    s.length |>.map (· + 1)

/-- Length taken by the greedy `(?P<computer_name>.+)` on `s`: the
longest nonempty newline-free prefix followed by `#` after which the
`package_manager` part still matches. -/
def cnLen (s : Str) : Option Nat :=
  maxSatBelow
    (fun j => noNl (s.take (j + 1))
      && decide ((s.drop (j + 1)).head? = some '#')
      && (pmLen (s.drop (j + 2))).isSome)
    s.length |>.map (· + 1)

/-- Length taken by the greedy `(?P<markdown>.*)` on `line`: the longest
(possibly empty) newline-free prefix after which the tag literal and the
two key groups match. -/
def mdLen (line : Str) : Option Nat :=
  maxSatBelow
    (fun k => noNl (line.take k)
      && tagLit.isPrefixOf (line.drop k)
      && (cnLen (line.drop (k + tagLit.length))).isSome)
    (line.length + 1)

/-- `re.match` of `row_regex` on one line: `some (markdown,
computer_name, package_manager)` on success. -/
def rowRegexMatch (line : Str) : Option (Str × Str × Str) :=
  match mdLen line with
  | none => none
  | some k =>
    let rest := line.drop (k + tagLit.length)
    match cnLen rest with
    | none => none
    | some c =>
      let rest2 := rest.drop (c + 1)
      match pmLen rest2 with
      | none => none
      | some p => some (line.take k, rest.take c, rest2.take p)

/-- The `markdown` sub-dictionary of a parsed row. -/
structure RowMarkdown where
  checkmark : Str
  computer_name : Str
  operation_system : Str
  package_manager : Str
  upgraded : Str
  failed : Str
  raw : Str
  deriving Repr, DecidableEq

/-- One element of `software_updates`: the pipe-split cells plus the
address extracted from the trailing comment. -/
structure SoftwareUpdate where
  markdown : RowMarkdown
  computer_name : Str
  package_manager : Str
  deriving Repr, DecidableEq

/-- Decode a single line exactly as the loop body of
`_get_software_update_rows_from_body` does: regex match, pipe split,
cell-count check, strip of the six inner cells. -/
def parseRowLine (line : Str) : Option SoftwareUpdate :=
  match rowRegexMatch line with
  | none => none
  | some (markdown, cn, pm) =>
    match pySplit1 '|' markdown with
    | [_, c1, c2, c3, c4, c5, c6, _] =>
      some
        { markdown :=
            { checkmark := pyStrip c1
              computer_name := pyStrip c2
              operation_system := pyStrip c3
              package_manager := pyStrip c4
              upgraded := pyStrip c5
              failed := pyStrip c6
              raw := markdown }
          computer_name := cn
          package_manager := pm }
    | _ => none

/-- `_get_software_update_rows_from_body`. -/
def getSoftwareUpdateRowsFromBody (body : Str) : List SoftwareUpdate :=
  (pySplit1 '\n' body).filterMap parseRowLine

/-- The trailing address comment re-appended by the document builder:
`" <!-- update-softwares#{cn}#{pm} -->"`. -/
def tagSuffix (cn pm : Str) : Str :=
  tagLit ++ cn ++ ('#' :: pm) ++ arrowLit

/-- What `_build_updated_body` emits for one input line: the line itself
when the regex does not match; the first address-matching row's
`raw` plus the rebuilt comment when one exists; nothing at all when the
line is tagged but its address is absent from `software_updates`. -/
def buildLine (softwareUpdates : List SoftwareUpdate) (row : Str) : List Str :=
  match rowRegexMatch row with
  | none => [row]
  | some (_, cn, pm) =>
    match softwareUpdates.find? (fun su =>
        su.computer_name == cn && su.package_manager == pm) with
    | some su => [su.markdown.raw ++ tagSuffix cn pm]
    | none => []

/-- `_build_updated_body`. -/
def buildUpdatedBody (body : Str) (softwareUpdates : List SoftwareUpdate) : Str :=
  pyJoin1 '\n' ((pySplit1 '\n' body).flatMap (buildLine softwareUpdates))

/-- `status_mapping` as a lookup: `{"success": "✅", "running": "⏳",
"failed": "🔴"}`. -/
def statusMapping (status : Str) : Option Str :=
  if status = "success".toList then some "✅".toList
  else if status = "running".toList then some "⏳".toList
  else if status = "failed".toList then some "🔴".toList
  else none

/-- Re-encoding of the visible cells performed after a mutation:
`"| " + " | ".join(cells) + " |"`. -/
def encodeCells (checkmark computer_name operation_system package_manager
    upgraded failed : Str) : Str :=
  ('|' :: ' ' :: List.intercalate " | ".toList
    [checkmark, computer_name, operation_system, package_manager, upgraded, failed])
    ++ [' ', '|']

/-- The in-place mutation both update paths perform on a located row:
overwrite `checkmark`, `upgraded`, `failed` and recompute `raw`. -/
def mutateRow (su : SoftwareUpdate) (checkmark upgraded failed : Str) :
    SoftwareUpdate :=
  { su with markdown :=
    { su.markdown with
      checkmark := checkmark
      upgraded := upgraded
      failed := failed
      raw := encodeCells checkmark su.markdown.computer_name
        su.markdown.operation_system su.markdown.package_manager
        upgraded failed } }

/-- Mutate the first row whose address matches, leaving every other row
unchanged; `none` when no row matches (the `updated` flag stays false). -/
def mutateFirst (updates : List SoftwareUpdate) (cn pm checkmark upgraded failed : Str) :
    Option (List SoftwareUpdate) :=
  match updates with
  | [] => none
  | su :: rest =>
    if su.computer_name = cn ∧ su.package_manager = pm then
      some (mutateRow su checkmark upgraded failed :: rest)
    else
      (mutateFirst rest cn pm checkmark upgraded failed).map (su :: ·)

/-- `update_software_update_row`: validates the status against the
closed mapping, then mutates the first matching row of the instance's
`software_updates`.  `Except.error` models the raised exception; on
success the boolean is the Python return value and the list is the
(possibly mutated) `software_updates`. -/
def updateSoftwareUpdateRow (softwareUpdates : List SoftwareUpdate)
    (cn pm status upgraded failed : Str) :
    Except Str (Bool × List SoftwareUpdate) :=
  match statusMapping status with
  | none => .error ("Invalid status: ".toList ++ status)
  | some checkmark =>
    match mutateFirst softwareUpdates cn pm checkmark upgraded failed with
    | some updated => .ok (true, updated)
    | none => .ok (false, softwareUpdates)

/-- `RETRY_SLEEP_MULTIPLIER = 0.5` (exact in binary floating point, so a
rational models the float faithfully for the products that occur). -/
def RETRY_SLEEP_MULTIPLIER : ℚ := 1 / 2

/-- The HTTP world seen by `atomic_update_with_retry`: the outcome of
the `i`-th issue-body GET (`Except.error` models the exception raised by
`__get_issue_body` on a non-200 status) and of the `i`-th PATCH
(status code together with response text). -/
structure Env where
  fetchResult : Nat → Except Str Str
  patchResult : Nat → Nat × Str

/-- Observable outcome of one `atomic_update_with_retry` call: the
Python result (`.error` = exception propagated, `.ok b` = returned `b`),
how many fetches and commit attempts were made, the sleep durations in
order, and the locally cached body after a successful commit. -/
structure RunResult where
  outcome : Except Str Bool
  fetchCount : Nat
  commitCount : Nat
  sleeps : List ℚ
  finalBody : Option Str
  deriving Repr

/-- The `for retry_count in range(max_retries)` loop of
`atomic_update_with_retry`, processing the remaining retry indices.
`fc`/`cc` count fetches and commit attempts so far, `sl` accumulates
sleeps in reverse.  Each attempt: fetch the latest body, parse it,
mutate the first row at the address (glyph
`status_mapping.get(status, status)`), raise if no row matched, rebuild,
PATCH; a 200 commits and returns `True`, anything else raises.  Any
exception of the attempt is re-raised on the last index and otherwise
followed by a sleep of `RETRY_SLEEP_MULTIPLIER * (retry_count + 1)`. -/
def atomicLoop (env : Env) (cn pm status upgraded failed : Str)
    (maxRetries : Nat) :
    List Nat → Nat → Nat → List ℚ → RunResult
  | [], fc, cc, sl => ⟨.ok false, fc, cc, sl.reverse, none⟩
  | rc :: rest, fc, cc, sl =>
    let failWith (msg : Str) (cc' : Nat) : RunResult :=
      if rc = maxRetries - 1 then
        ⟨.error msg, fc + 1, cc', sl.reverse, none⟩
      else
        atomicLoop env cn pm status upgraded failed maxRetries rest
          (fc + 1) cc' (RETRY_SLEEP_MULTIPLIER * (rc + 1) :: sl)
    match env.fetchResult fc with
    | .error msg => failWith ("Failed to get issue body: ".toList ++ msg) cc
    | .ok currentBody =>
      let currentUpdates := getSoftwareUpdateRowsFromBody currentBody
      let checkmark := (statusMapping status).getD status
      match mutateFirst currentUpdates cn pm checkmark upgraded failed with
      | none =>
        failWith ("No matching software update row found for ".toList
          ++ cn ++ ('#' :: pm)) cc
      | some updated =>
        let newBody := buildUpdatedBody currentBody updated
        let (code, text) := env.patchResult cc
        if code = 200 then
          ⟨.ok true, fc + 1, cc + 1, sl.reverse, some newBody⟩
        else
          failWith ("Failed to update issue body: ".toList ++ text) (cc + 1)

/-- `atomic_update_with_retry(computer_name, package_manager, status,
upgraded, failed, max_retries=3)` run against an abstract HTTP `Env`. -/
def atomicUpdateWithRetry (env : Env) (cn pm status upgraded failed : Str)
    (maxRetries : Nat := 3) : RunResult :=
  atomicLoop env cn pm status upgraded failed maxRetries
    (List.range maxRetries) 0 0 []

/-- A visible cell value as the codec assumes it: no pipe (so the cell
count survives re-splitting), no newline (so the line stays one line),
and already stripped (so re-parsing strips nothing away). -/
def wellFormedCell (c : Str) : Prop :=
  '|' ∉ c ∧ '\n' ∉ c ∧ pyStrip c = c

/-- An address key as the tag grammar assumes it: nonempty, without the
`#` delimiter and without a newline. -/
def wellFormedKey (k : Str) : Prop :=
  k ≠ [] ∧ '#' ∉ k ∧ '\n' ∉ k

instance (c : Str) : Decidable (wellFormedCell c) := by
  unfold wellFormedCell
  infer_instance

instance (k : Str) : Decidable (wellFormedKey k) := by
  unfold wellFormedKey
  infer_instance

/-- A well-formed `Row`: the six visible cells are cell-clean, the two
address keys are key-clean, and `raw` is the canonical six-cell
encoding of the visible cells. -/
def wellFormedRow (su : SoftwareUpdate) : Prop :=
  wellFormedCell su.markdown.checkmark ∧
  wellFormedCell su.markdown.computer_name ∧
  wellFormedCell su.markdown.operation_system ∧
  wellFormedCell su.markdown.package_manager ∧
  wellFormedCell su.markdown.upgraded ∧
  wellFormedCell su.markdown.failed ∧
  su.markdown.raw = encodeCells su.markdown.checkmark
    su.markdown.computer_name su.markdown.operation_system
    su.markdown.package_manager su.markdown.upgraded su.markdown.failed ∧
  wellFormedKey su.computer_name ∧
  wellFormedKey su.package_manager

instance (su : SoftwareUpdate) : Decidable (wellFormedRow su) := by
  unfold wellFormedRow
  infer_instance

/-- `encode(Row)`: re-join the six cells with `" | "` separators inside
the pipe frame and re-append the address comment — exactly what
`update_software_update_row` (raw recomputation) followed by
`_build_updated_body` (comment re-append) emits for the row. -/
def encodeRow (su : SoftwareUpdate) : Str :=
  encodeCells su.markdown.checkmark su.markdown.computer_name
    su.markdown.operation_system su.markdown.package_manager
    su.markdown.upgraded su.markdown.failed
  ++ tagSuffix su.computer_name su.package_manager

/-! ### Concrete scenario data (documents, rows and environments used to
evaluate the code at specific inputs) -/

/-- A canonical six-cell tagged row line, as in the repository's tests. -/
def goodLine : Str :=
  "| ⏳ | Computer1 | Linux | apt | 0 | 0 | <!-- update-softwares#Computer1#apt -->".toList

/-- A tagged line whose table prefix has five cells instead of six. -/
def badCellLine : Str :=
  "| ⏳ | Computer2 | Linux | apt | 0 | <!-- update-softwares#Computer2#apt -->".toList

/-- A document holding one correct row and one malformed tagged line. -/
def malformedBody : Str := goodLine ++ '\n' :: badCellLine

/-- A second canonical row line at a distinct address. -/
def scoopLine : Str :=
  "| ✅ | Computer2 | Windows | scoop | 5 | 0 | <!-- update-softwares#Computer2#scoop -->".toList

/-- Rows A and B with a malformed tagged line between them. -/
def bodyAB : Str := goodLine ++ '\n' :: (badCellLine ++ '\n' :: scoopLine)

/-- The parse of `bodyAB` (the malformed line contributes nothing). -/
def updatesAB : List SoftwareUpdate := getSoftwareUpdateRowsFromBody bodyAB

/-- `updatesAB` after mutating the row at address `Computer1#apt`. -/
def mutatedAB : List SoftwareUpdate :=
  (mutateFirst updatesAB "Computer1".toList "apt".toList "✅".toList
    "5".toList "0".toList).getD []

/-- Seven-cell row lines carrying the OS EOL column, exactly the bodies
the repository test `test_parse_body_with_os_eol_column` feeds in. -/
def eolLine1 : Str :=
  "| ⏳ | Computer1 | Linux | apt | 0 | 0 | 2027/04/30 (500 日後) | <!-- update-softwares#Computer1#apt -->".toList

def eolLine2 : Str :=
  "| 🔴 | Computer2 | Windows | scoop | 5 | 0 | **2025/10/14 (50 日後)** | <!-- update-softwares#Computer2#scoop -->".toList

def eolBody : Str := eolLine1 ++ '\n' :: eolLine2

/-- The initial body of the repository test `test_atomic_update_with_os_eol`. -/
def eolSimpleLine : Str :=
  "| ⏳ | Computer1 | Linux | apt | 0 | 0 | 不明 | <!-- update-softwares#Computer1#apt -->".toList

/-- Fetch always returns `goodLine`; every PATCH succeeds with 200. -/
def envGood : Env :=
  { fetchResult := fun _ => .ok goodLine
    patchResult := fun _ => (200, []) }

/-- Fetch always returns the EOL-format body; every PATCH succeeds. -/
def envEol : Env :=
  { fetchResult := fun _ => .ok eolSimpleLine
    patchResult := fun _ => (200, []) }

/-- Fetch succeeds; the first two PATCH attempts fail with 409, the
third succeeds. -/
def envFlaky : Env :=
  { fetchResult := fun _ => .ok goodLine
    patchResult := fun i =>
      if i < 2 then (409, "Conflict".toList) else (200, []) }

/-- Fetch succeeds; every PATCH fails with 500. -/
def envAlwaysFail : Env :=
  { fetchResult := fun _ => .ok goodLine
    patchResult := fun _ => (500, "Internal Server Error".toList) }

/-- The parsed row of `goodLine`, with canonical `raw`. -/
def suGood : SoftwareUpdate :=
  { markdown :=
      { checkmark := "⏳".toList
        computer_name := "Computer1".toList
        operation_system := "Linux".toList
        package_manager := "apt".toList
        upgraded := "0".toList
        failed := "0".toList
        raw := encodeCells "⏳".toList "Computer1".toList "Linux".toList
          "apt".toList "0".toList "0".toList }
    computer_name := "Computer1".toList
    package_manager := "apt".toList }

/-- The parsed row of `scoopLine`, with canonical `raw`. -/
def suScoop : SoftwareUpdate :=
  { markdown :=
      { checkmark := "✅".toList
        computer_name := "Computer2".toList
        operation_system := "Windows".toList
        package_manager := "scoop".toList
        upgraded := "5".toList
        failed := "0".toList
        raw := encodeCells "✅".toList "Computer2".toList "Windows".toList
          "scoop".toList "5".toList "0".toList }
    computer_name := "Computer2".toList
    package_manager := "scoop".toList }

/-- A row whose cells are clean but whose package-manager key contains
the `#` delimiter. -/
def suHashKey : SoftwareUpdate :=
  { markdown :=
      { checkmark := "⏳".toList
        computer_name := "C1".toList
        operation_system := "Linux".toList
        package_manager := "apt".toList
        upgraded := "0".toList
        failed := "0".toList
        raw := encodeCells "⏳".toList "C1".toList "Linux".toList
          "apt".toList "0".toList "0".toList }
    computer_name := "Host".toList
    package_manager := "a#b".toList }

/-- The parse of `goodLine` mutated with the unknown status string
`bogus` used verbatim as the glyph. -/
def updatesBogus : List SoftwareUpdate :=
  (mutateFirst (getSoftwareUpdateRowsFromBody goodLine) "Computer1".toList
    "apt".toList "bogus".toList "5".toList "0".toList).getD []

/-! ### Generic helper lemmas -/

theorem maxSatBelow_eq_some (P : Nat → Bool) {n k : Nat} (hk : k < n)
    (hPk : P k = true) (hmax : ∀ j, k < j → j < n → P j = false) :
    maxSatBelow P n = some k := by
  induction n with
  | zero => omega
  | succ m ih =>
    by_cases hkm : k = m
    · subst hkm
      simp [maxSatBelow, hPk]
    · have hk' : k < m := by omega
      have hPm : P m = false := hmax m (by omega) (by omega)
      simp only [maxSatBelow, hPm, Bool.false_eq_true, if_false]
      exact ih hk' (fun j h1 h2 => hmax j h1 (by omega))

theorem maxSatBelow_eq_none (P : Nat → Bool) {n : Nat}
    (h : ∀ j, j < n → P j = false) : maxSatBelow P n = none := by
  induction n with
  | zero => rfl
  | succ m ih =>
    simp only [maxSatBelow, h m (by omega), Bool.false_eq_true, if_false]
    exact ih (fun j hj => h j (by omega))

theorem pySplit1_nil (sep : Char) : pySplit1 sep [] = [[]] := rfl

theorem pySplit1_ne_nil (sep : Char) (s : Str) : pySplit1 sep s ≠ [] := by
  induction s with
  | nil => simp [pySplit1]
  | cons c rest ih =>
    simp only [pySplit1]
    split
    · simp
    · cases h : pySplit1 sep rest with
      | nil => simp
      | cons p ps => simp

theorem pySplit1_append_sep (sep : Char) (u v : Str) (hu : sep ∉ u) :
    pySplit1 sep (u ++ sep :: v) = u :: pySplit1 sep v := by
  induction u with
  | nil => simp [pySplit1]
  | cons c rest ih =>
    have hc : ¬(c = sep) := by
      intro h; exact hu (h ▸ List.mem_cons_self c rest)
    have hrest : sep ∉ rest := fun h => hu (List.mem_cons_of_mem c h)
    simp only [List.cons_append, pySplit1, if_neg hc, List.append_eq, ih hrest]

theorem pySplit1_no_sep (sep : Char) (u : Str) (hu : sep ∉ u) :
    pySplit1 sep u = [u] := by
  induction u with
  | nil => rfl
  | cons c rest ih =>
    have hc : ¬(c = sep) := by
      intro h; exact hu (h ▸ List.mem_cons_self c rest)
    have hrest : sep ∉ rest := fun h => hu (List.mem_cons_of_mem c h)
    simp only [pySplit1, if_neg hc, ih hrest]

/-- `sep.join` undoes `split(sep)` on a nonempty list of sep-free pieces. -/
theorem pySplit1_pyJoin1 (sep : Char) (L : List Str) (hne : L ≠ [])
    (hfree : ∀ l ∈ L, sep ∉ l) :
    pySplit1 sep (pyJoin1 sep L) = L := by
  induction L with
  | nil => exact absurd rfl hne
  | cons l rest ih =>
    cases rest with
    | nil =>
      simpa [pyJoin1, List.intercalate] using
        pySplit1_no_sep sep l (hfree l (List.mem_cons_self l []))
    | cons l2 rest2 =>
      have h1 : sep ∉ l := hfree l (List.mem_cons_self _ _)
      have h2 : ∀ x ∈ l2 :: rest2, sep ∉ x :=
        fun x hx => hfree x (List.mem_cons_of_mem l hx)
      have hjoin : pyJoin1 sep (l :: l2 :: rest2) =
          l ++ sep :: pyJoin1 sep (l2 :: rest2) := by
        simp [pyJoin1, List.intercalate, List.intersperse]
      rw [hjoin, pySplit1_append_sep sep l _ h1, ih (by simp) h2]

theorem noNl_append {a b : Str} :
    noNl (a ++ b) = (noNl a && noNl b) := by
  simp [noNl, List.all_append]

theorem noNl_take {s : Str} (h : noNl s = true) (k : Nat) :
    noNl (s.take k) = true := by
  simp only [noNl, List.all_eq_true] at h ⊢
  exact fun c hc => h c (List.take_subset k s hc)

theorem isPrefixOf_true_iff {p l : Str} : p.isPrefixOf l = true ↔ p <+: l :=
  List.isPrefixOf_iff_prefix

theorem mem_of_getElem?_eq_some {α : Type _} {l : List α} {n : Nat} {a : α}
    (h : l[n]? = some a) : a ∈ l := by
  obtain ⟨hlt, rfl⟩ := List.getElem?_eq_some_iff.mp h
  exact List.getElem_mem hlt

/-- A prefix agrees with the full list at every index it covers. -/
theorem getElem?_of_isPrefixOf {p l : Str} {i : Nat}
    (h : p.isPrefixOf l = true) (hi : i < p.length) : l[i]? = p[i]? := by
  obtain ⟨t, rfl⟩ := isPrefixOf_true_iff.mp h
  exact List.getElem?_append_left hi

theorem length_le_of_isPrefixOf {p l : Str} (h : p.isPrefixOf l = true) :
    p.length ≤ l.length :=
  (isPrefixOf_true_iff.mp h).length_le

/-! ### Exact behavior of the greedy matcher on canonically tagged lines -/

theorem pmLen_canon (pm : Str) (hne : pm ≠ []) (hnl : noNl pm = true) :
    pmLen (pm ++ arrowLit) = some pm.length := by
  have hpm1 : 1 ≤ pm.length := List.length_pos.mpr hne
  have hlen : (pm ++ arrowLit).length = pm.length + 4 := by
    simp [arrowLit]
  have hmain : maxSatBelow
      (fun j => noNl ((pm ++ arrowLit).take (j + 1))
        && arrowLit.isPrefixOf ((pm ++ arrowLit).drop (j + 1)))
      (pm ++ arrowLit).length = some (pm.length - 1) := by
    apply maxSatBelow_eq_some
    · omega
    · have h1 : pm.length - 1 + 1 = pm.length := by omega
      rw [h1, List.take_left, List.drop_left]
      rw [hnl]
      simp [isPrefixOf_true_iff]
    · intro j h1 h2
      have hgt : pm.length < j + 1 := by omega
      have hdrop : (pm ++ arrowLit).drop (j + 1) =
          arrowLit.drop (j + 1 - pm.length) := by
        have e1 := List.drop_drop (j + 1 - pm.length) pm.length (pm ++ arrowLit)
        rw [List.drop_left] at e1
        rw [show pm.length + (j + 1 - pm.length) = j + 1 from by omega] at e1
        exact e1.symm
      have hpre : arrowLit.isPrefixOf ((pm ++ arrowLit).drop (j + 1)) = false := by
        rw [Bool.eq_false_iff]
        intro hp
        have := length_le_of_isPrefixOf hp
        rw [hdrop, List.length_drop] at this
        have : (4 : Nat) ≤ 4 - (j + 1 - pm.length) := by simpa [arrowLit] using this
        omega
      rw [hpre, Bool.and_false]
  rw [pmLen, hmain, Option.map_some']
  congr 1
  omega

theorem cnLen_canon (cn pm : Str)
    (hcne : cn ≠ []) (hcnl : noNl cn = true) (hchash : '#' ∉ cn)
    (hpne : pm ≠ []) (hpnl : noNl pm = true) (hphash : '#' ∉ pm) :
    cnLen (cn ++ '#' :: (pm ++ arrowLit)) = some cn.length := by
  have hcn1 : 1 ≤ cn.length := List.length_pos.mpr hcne
  set s : Str := cn ++ '#' :: (pm ++ arrowLit) with hs
  have hslen : s.length = cn.length + pm.length + 5 := by
    simp only [hs, List.length_append, List.length_cons]
    have : arrowLit.length = 4 := by decide
    omega
  have hdrop_cn : s.drop cn.length = '#' :: (pm ++ arrowLit) := by
    rw [hs, List.drop_left]
  have hdrop_cn1 : s.drop (cn.length + 1) = pm ++ arrowLit := by
    have e1 := List.drop_drop 1 cn.length s
    rw [hdrop_cn] at e1
    exact e1.symm
  have hmain : maxSatBelow
      (fun j => noNl (s.take (j + 1))
        && decide ((s.drop (j + 1)).head? = some '#')
        && (pmLen (s.drop (j + 2))).isSome)
      s.length = some (cn.length - 1) := by
    apply maxSatBelow_eq_some
    · omega
    · have h1 : cn.length - 1 + 1 = cn.length := by omega
      have h2 : cn.length - 1 + 2 = cn.length + 1 := by omega
      rw [h1, h2, hdrop_cn, hdrop_cn1]
      have htake : s.take cn.length = cn := by rw [hs, List.take_left]
      rw [htake, hcnl, pmLen_canon pm hpne hpnl]
      simp
    · intro j h1 h2
      have hgt : cn.length + 1 ≤ j + 1 := by omega
      have hdropj : s.drop (j + 1) = (pm ++ arrowLit).drop (j - cn.length) := by
        have e1 := List.drop_drop (j - cn.length) (cn.length + 1) s
        rw [hdrop_cn1] at e1
        rw [show cn.length + 1 + (j - cn.length) = j + 1 from by omega] at e1
        exact e1.symm
      have hhead : decide ((s.drop (j + 1)).head? = some '#') = false := by
        rw [decide_eq_false_iff_not]
        intro hp
        rw [hdropj, List.head?_drop] at hp
        have hmem : '#' ∈ pm ++ arrowLit := mem_of_getElem?_eq_some hp
        rcases List.mem_append.mp hmem with h | h
        · exact hphash h
        · revert h
          decide
      rw [hhead, Bool.and_false, Bool.false_and]
  rw [cnLen, hmain, Option.map_some']
  congr 1
  omega

theorem cnLen_hashFree (s : Str) (hhash : '#' ∉ s) : cnLen s = none := by
  rw [cnLen]
  rw [maxSatBelow_eq_none]
  · rfl
  · intro j hj
    have hhead : decide ((s.drop (j + 1)).head? = some '#') = false := by
      rw [decide_eq_false_iff_not]
      intro hp
      rw [List.head?_drop] at hp
      exact hhash (mem_of_getElem?_eq_some hp)
    rw [hhead, Bool.and_false, Bool.false_and]

/-- The `#` characters of the suffix region of a canonically tagged line
sit exactly at the end of the tag literal and at the key separator. -/
theorem hash_positions (cn pm : Str) (hchash : '#' ∉ cn) (hphash : '#' ∉ pm)
    {i : Nat}
    (h : (tagLit ++ (cn ++ '#' :: (pm ++ arrowLit)))[i]? = some '#') :
    i = 22 ∨ i = 23 + cn.length := by
  have htag23 : tagLit.length = 23 := by decide
  rcases Nat.lt_or_ge i 23 with hi | hi
  · left
    rw [List.getElem?_append_left (by omega)] at h
    revert h
    revert hi
    revert i
    decide
  · rw [List.getElem?_append, if_neg (by omega), htag23] at h
    rcases Nat.lt_trichotomy (i - 23) cn.length with hlt | heq | hgt
    · rw [List.getElem?_append_left hlt] at h
      exact absurd (mem_of_getElem?_eq_some h) hchash
    · right
      omega
    · rw [List.getElem?_append, if_neg (by omega)] at h
      have h2 : (pm ++ arrowLit)[i - 23 - cn.length - 1]? = some '#' := by
        have : i - 23 - cn.length = i - 23 - cn.length - 1 + 1 := by omega
        rw [this] at h
        simpa using h
      have hmem : '#' ∈ pm ++ arrowLit := mem_of_getElem?_eq_some h2
      rcases List.mem_append.mp hmem with h3 | h3
      · exact absurd h3 hphash
      · exact absurd h3 (by decide)

theorem mdLen_canon (P cn pm : Str) (hPnl : noNl P = true)
    (hcne : cn ≠ []) (hcnl : noNl cn = true) (hchash : '#' ∉ cn)
    (hpne : pm ≠ []) (hpnl : noNl pm = true) (hphash : '#' ∉ pm) :
    mdLen (P ++ (tagLit ++ (cn ++ '#' :: (pm ++ arrowLit)))) = some P.length := by
  have htag23 : tagLit.length = 23 := by decide
  set S : Str := tagLit ++ (cn ++ '#' :: (pm ++ arrowLit)) with hS
  set line : Str := P ++ S with hline
  have hdrop_P : line.drop P.length = S := by rw [hline, List.drop_left]
  have hdrop_P23 : line.drop (P.length + 23) = cn ++ '#' :: (pm ++ arrowLit) := by
    have e1 := List.drop_drop 23 P.length line
    rw [hdrop_P, hS, ← htag23, List.drop_left] at e1
    exact e1.symm
  have hmain : maxSatBelow
      (fun k => noNl (line.take k)
        && tagLit.isPrefixOf (line.drop k)
        && (cnLen (line.drop (k + tagLit.length))).isSome)
      (line.length + 1) = some P.length := by
    apply maxSatBelow_eq_some
    · have : P.length ≤ line.length := by
        rw [hline]; simp
      omega
    · rw [List.take_left, hdrop_P, htag23, hdrop_P23, hPnl]
      rw [cnLen_canon cn pm hcne hcnl hchash hpne hpnl hphash]
      rw [hS]
      simp [isPrefixOf_true_iff]
    · intro k h1 h2
      rw [Bool.eq_false_iff]
      intro hQ
      rw [Bool.and_eq_true, Bool.and_eq_true] at hQ
      obtain ⟨⟨hA, hB⟩, hC⟩ := hQ
      set j : Nat := k - P.length with hj
      have hj1 : 1 ≤ j := by omega
      have hdropk : line.drop k = S.drop j := by
        have : P.length + j = k := by omega
        rw [← this, ← List.drop_drop, hdrop_P]
      have h22 : (line.drop k)[22]? = some '#' := by
        rw [getElem?_of_isPrefixOf hB (by omega)]
        decide
      have hS22 : S[j + 22]? = some '#' := by
        rw [hdropk, List.getElem?_drop] at h22
        exact h22
      have hpos := hash_positions cn pm hchash hphash hS22
      have hjeq : j = cn.length + 1 := by omega
      have hdropk23 : line.drop (k + tagLit.length) = pm ++ arrowLit := by
        have e1 := List.drop_drop (cn.length + 1) (P.length + 23) line
        rw [hdrop_P23] at e1
        have e2 := List.drop_drop 1 cn.length (cn ++ '#' :: (pm ++ arrowLit))
        rw [List.drop_left] at e2
        rw [← e2] at e1
        simp only [List.drop_succ_cons, List.drop_zero] at e1
        have hk : k + tagLit.length = P.length + 23 + (cn.length + 1) := by
          rw [htag23]; omega
        rw [hk, ← e1]
      rw [hdropk23] at hC
      rw [cnLen_hashFree (pm ++ arrowLit)] at hC
      · exact absurd hC (by simp)
      · intro hmem
        rcases List.mem_append.mp hmem with h3 | h3
        · exact hphash h3
        · revert h3
          decide
  rw [mdLen, hmain]

theorem rowRegexMatch_canon (P cn pm : Str) (hPnl : noNl P = true)
    (hcne : cn ≠ []) (hcnl : noNl cn = true) (hchash : '#' ∉ cn)
    (hpne : pm ≠ []) (hpnl : noNl pm = true) (hphash : '#' ∉ pm) :
    rowRegexMatch (P ++ tagSuffix cn pm) = some (P, cn, pm) := by
  have htag23 : tagLit.length = 23 := by decide
  have hshape : P ++ tagSuffix cn pm =
      P ++ (tagLit ++ (cn ++ '#' :: (pm ++ arrowLit))) := by
    simp [tagSuffix]
  rw [hshape]
  have hmd := mdLen_canon P cn pm hPnl hcne hcnl hchash hpne hpnl hphash
  have hdropP23 : (P ++ (tagLit ++ (cn ++ '#' :: (pm ++ arrowLit)))).drop
      (P.length + tagLit.length) = cn ++ '#' :: (pm ++ arrowLit) := by
    have e1 := List.drop_drop tagLit.length P.length
      (P ++ (tagLit ++ (cn ++ '#' :: (pm ++ arrowLit))))
    rw [List.drop_left, List.drop_left] at e1
    exact e1.symm
  have hcn := cnLen_canon cn pm hcne hcnl hchash hpne hpnl hphash
  have hdrop2 : (cn ++ '#' :: (pm ++ arrowLit)).drop (cn.length + 1) =
      pm ++ arrowLit := by
    have e1 := List.drop_drop 1 cn.length (cn ++ '#' :: (pm ++ arrowLit))
    rw [List.drop_left] at e1
    rw [← e1]
    rfl
  have hpmL := pmLen_canon pm hpne hpnl
  simp only [rowRegexMatch, hmd, hdropP23, hcn, hdrop2, hpmL,
    List.take_left]

/-- The six-cell encoding, written with one `'|'` before each padded
cell and one closing `'|'`. -/
theorem encodeCells_eq (c1 c2 c3 c4 c5 c6 : Str) :
    encodeCells c1 c2 c3 c4 c5 c6 =
      '|' :: ((' ' :: (c1 ++ [' '])) ++ '|' :: ((' ' :: (c2 ++ [' '])) ++
        '|' :: ((' ' :: (c3 ++ [' '])) ++ '|' :: ((' ' :: (c4 ++ [' '])) ++
        '|' :: ((' ' :: (c5 ++ [' '])) ++ '|' :: ((' ' :: (c6 ++ [' '])) ++
        ['|'])))))) := by
  simp [encodeCells, List.intercalate, List.intersperse]

theorem pySplit1_sep_cons (sep : Char) (rest : Str) :
    pySplit1 sep (sep :: rest) = [] :: pySplit1 sep rest := by
  simp [pySplit1]

theorem pipe_not_mem_pad {c : Str} (h : '|' ∉ c) :
    '|' ∉ (' ' :: (c ++ [' '])) := by
  simp_all

theorem pySplit1_encodeCells (c1 c2 c3 c4 c5 c6 : Str)
    (h1 : '|' ∉ c1) (h2 : '|' ∉ c2) (h3 : '|' ∉ c3)
    (h4 : '|' ∉ c4) (h5 : '|' ∉ c5) (h6 : '|' ∉ c6) :
    pySplit1 '|' (encodeCells c1 c2 c3 c4 c5 c6) =
      [[], ' ' :: (c1 ++ [' ']), ' ' :: (c2 ++ [' ']), ' ' :: (c3 ++ [' ']),
        ' ' :: (c4 ++ [' ']), ' ' :: (c5 ++ [' ']), ' ' :: (c6 ++ [' ']), []] := by
  rw [encodeCells_eq, pySplit1_sep_cons,
    pySplit1_append_sep _ _ _ (pipe_not_mem_pad h1),
    pySplit1_append_sep _ _ _ (pipe_not_mem_pad h2),
    pySplit1_append_sep _ _ _ (pipe_not_mem_pad h3),
    pySplit1_append_sep _ _ _ (pipe_not_mem_pad h4),
    pySplit1_append_sep _ _ _ (pipe_not_mem_pad h5)]
  have hlast : (' ' :: (c6 ++ [' '])) ++ ['|'] =
      (' ' :: (c6 ++ [' '])) ++ '|' :: [] := rfl
  rw [hlast, pySplit1_append_sep _ _ _ (pipe_not_mem_pad h6)]
  rfl

/-! ### `str.strip()` on an already-stripped value padded by one space -/

theorem dropWhile_eq_self_of_strip {c : Str} (h : pyStrip c = c) :
    c.dropWhile pyIsSpace = c := by
  have hsuf : c.dropWhile pyIsSpace <:+ c := List.dropWhile_suffix pyIsSpace
  apply hsuf.eq_of_length
  have l1 : (pyStrip c).length ≤ (c.dropWhile pyIsSpace).length := by
    rw [pyStrip, List.length_reverse]
    calc ((c.dropWhile pyIsSpace).reverse.dropWhile pyIsSpace).length
        ≤ (c.dropWhile pyIsSpace).reverse.length :=
          (List.dropWhile_suffix pyIsSpace).length_le
      _ = (c.dropWhile pyIsSpace).length := List.length_reverse _
  have l2 : (c.dropWhile pyIsSpace).length ≤ c.length := hsuf.length_le
  rw [h] at l1
  omega

theorem reverse_dropWhile_eq_self_of_strip {c : Str} (h : pyStrip c = c) :
    c.reverse.dropWhile pyIsSpace = c.reverse := by
  have h1 := dropWhile_eq_self_of_strip h
  have h2 : pyStrip c = (c.reverse.dropWhile pyIsSpace).reverse := by
    rw [pyStrip, h1]
  rw [h] at h2
  have := congrArg List.reverse h2
  rw [List.reverse_reverse] at this
  exact this.symm

theorem head_not_space_of_strip {d : Char} {t : Str}
    (h : pyStrip (d :: t) = d :: t) : pyIsSpace d = false := by
  have h1 := dropWhile_eq_self_of_strip h
  by_contra hd
  have hd' : pyIsSpace d = true := by
    cases hpd : pyIsSpace d
    · exact absurd hpd hd
    · rfl
  rw [List.dropWhile_cons, if_pos hd'] at h1
  have : (List.dropWhile pyIsSpace t).length ≤ t.length :=
    (List.dropWhile_suffix pyIsSpace).length_le
  have : (d :: t).length ≤ t.length := by rw [← h1]; exact this
  simp at this

theorem pyStrip_pad {c : Str} (h : pyStrip c = c) :
    pyStrip (' ' :: (c ++ [' '])) = c := by
  cases c with
  | nil => decide
  | cons d t =>
    have hd := head_not_space_of_strip h
    have hrev := reverse_dropWhile_eq_self_of_strip h
    have hsp : pyIsSpace ' ' = true := by decide
    rw [pyStrip, List.dropWhile_cons, if_pos hsp]
    have hstep : List.dropWhile pyIsSpace ((d :: t) ++ [' ']) =
        (d :: t) ++ [' '] := by
      rw [List.cons_append, List.dropWhile_cons, if_neg (by simp [hd])]
    rw [hstep]
    have hrevapp : ((d :: t) ++ [' ']).reverse = ' ' :: (d :: t).reverse := by
      rw [List.reverse_append]
      rfl
    rw [hrevapp, List.dropWhile_cons, if_pos hsp, hrev, List.reverse_reverse]

/-! ### Well-formed rows and the decode-encode round trip -/

theorem noNl_iff {s : Str} : noNl s = true ↔ '\n' ∉ s := by
  simp only [noNl, List.all_eq_true, bne_iff_ne, ne_eq]
  constructor
  · intro h hmem
    exact h '\n' hmem rfl
  · intro h c hc heq
    exact h (heq ▸ hc)

theorem noNl_encodeCells {c1 c2 c3 c4 c5 c6 : Str}
    (h1 : '\n' ∉ c1) (h2 : '\n' ∉ c2) (h3 : '\n' ∉ c3)
    (h4 : '\n' ∉ c4) (h5 : '\n' ∉ c5) (h6 : '\n' ∉ c6) :
    noNl (encodeCells c1 c2 c3 c4 c5 c6) = true := by
  rw [noNl_iff, encodeCells_eq]
  intro hmem
  simp only [List.mem_cons, List.mem_append, List.mem_singleton] at hmem
  rcases hmem with h | h
  · exact absurd h (by decide)
  · tauto

/-- Decoding the canonical encoding of a well-formed row recovers the
row exactly: the round-trip law of the Row Codec, as implemented. -/
theorem parseRowLine_canon (su : SoftwareUpdate) (h : wellFormedRow su) :
    parseRowLine (encodeRow su) = some su := by
  obtain ⟨md, cn, pm⟩ := su
  obtain ⟨f1, f2, f3, f4, f5, f6, raw⟩ := md
  simp only [wellFormedRow, wellFormedCell, wellFormedKey] at h
  obtain ⟨⟨hp1, hn1, hs1⟩, ⟨hp2, hn2, hs2⟩, ⟨hp3, hn3, hs3⟩, ⟨hp4, hn4, hs4⟩,
    ⟨hp5, hn5, hs5⟩, ⟨hp6, hn6, hs6⟩, hraw,
    ⟨hcne, hchash, hcnl⟩, ⟨hpne, hphash, hpnl⟩⟩ := h
  have hPnl := noNl_encodeCells hn1 hn2 hn3 hn4 hn5 hn6
  have hmatch := rowRegexMatch_canon (encodeCells f1 f2 f3 f4 f5 f6) cn pm hPnl
    hcne (noNl_iff.mpr hcnl) hchash hpne (noNl_iff.mpr hpnl) hphash
  have hsplit := pySplit1_encodeCells f1 f2 f3 f4 f5 f6 hp1 hp2 hp3 hp4 hp5 hp6
  simp only [parseRowLine, encodeRow, hmatch, hsplit]
  rw [pyStrip_pad hs1, pyStrip_pad hs2, pyStrip_pad hs3, pyStrip_pad hs4,
    pyStrip_pad hs5, pyStrip_pad hs6, hraw]

/-! ### Mutation and builder lemmas -/

theorem mutateRow_computer_name (su : SoftwareUpdate) (a b c : Str) :
    (mutateRow su a b c).computer_name = su.computer_name := rfl

theorem mutateRow_package_manager (su : SoftwareUpdate) (a b c : Str) :
    (mutateRow su a b c).package_manager = su.package_manager := rfl

theorem mutateFirst_eq_none_iff (us : List SoftwareUpdate) (cn pm a b c : Str) :
    mutateFirst us cn pm a b c = none ↔
      ∀ su ∈ us, ¬(su.computer_name = cn ∧ su.package_manager = pm) := by
  induction us with
  | nil => simp [mutateFirst]
  | cons su rest ih =>
    by_cases hsu : su.computer_name = cn ∧ su.package_manager = pm
    · simp [mutateFirst, if_pos hsu, hsu]
    · simp only [mutateFirst, if_neg hsu, Option.map_eq_none', ih,
        List.mem_cons]
      constructor
      · intro hall t ht
        rcases ht with rfl | ht
        · exact hsu
        · exact hall t ht
      · intro hall t ht
        exact hall t (Or.inr ht)

/-- Locating mutates exactly the first matching row and nothing else. -/
theorem mutateFirst_append (l1 l2 : List SoftwareUpdate)
    (su : SoftwareUpdate) (cn pm a b c : Str)
    (hsu : su.computer_name = cn ∧ su.package_manager = pm)
    (hl1 : ∀ t ∈ l1, ¬(t.computer_name = cn ∧ t.package_manager = pm)) :
    mutateFirst (l1 ++ su :: l2) cn pm a b c =
      some (l1 ++ mutateRow su a b c :: l2) := by
  induction l1 with
  | nil => simp [mutateFirst, if_pos hsu]
  | cons t rest ih =>
    have ht : ¬(t.computer_name = cn ∧ t.package_manager = pm) :=
      hl1 t (List.mem_cons_self _ _)
    have hrest : ∀ x ∈ rest, ¬(x.computer_name = cn ∧ x.package_manager = pm) :=
      fun x hx => hl1 x (List.mem_cons_of_mem _ hx)
    simp [mutateFirst, if_neg ht, ih hrest]

theorem buildLine_opaque (us : List SoftwareUpdate) (row : Str)
    (h : rowRegexMatch row = none) : buildLine us row = [row] := by
  simp [buildLine, h]

theorem buildLine_drop (us : List SoftwareUpdate) (row md cn pm : Str)
    (h : rowRegexMatch row = some (md, cn, pm))
    (hfind : us.find? (fun su =>
      su.computer_name == cn && su.package_manager == pm) = none) :
    buildLine us row = [] := by
  simp [buildLine, h, hfind]

theorem buildLine_found (us : List SoftwareUpdate) (row md cn pm : Str)
    (su : SoftwareUpdate)
    (h : rowRegexMatch row = some (md, cn, pm))
    (hfind : us.find? (fun su =>
      su.computer_name == cn && su.package_manager == pm) = some su) :
    buildLine us row = [su.markdown.raw ++ tagSuffix cn pm] := by
  simp [buildLine, h, hfind]

theorem noNl_tagSuffix {cn pm : Str} (hcn : '\n' ∉ cn) (hpm : '\n' ∉ pm) :
    noNl (tagSuffix cn pm) = true := by
  rw [noNl_iff, tagSuffix]
  intro hmem
  simp only [List.mem_append, List.mem_cons] at hmem
  rcases hmem with ((h | h) | (h | h)) | h
  · exact absurd h (by decide)
  · exact hcn h
  · exact absurd h (by decide)
  · exact hpm h
  · exact absurd h (by decide)

theorem noNl_encodeRow {su : SoftwareUpdate} (h : wellFormedRow su) :
    noNl (encodeRow su) = true := by
  obtain ⟨⟨_, hn1, _⟩, ⟨_, hn2, _⟩, ⟨_, hn3, _⟩, ⟨_, hn4, _⟩,
    ⟨_, hn5, _⟩, ⟨_, hn6, _⟩, _, ⟨_, _, hcnl⟩, ⟨_, _, hpnl⟩⟩ := h
  rw [encodeRow, noNl_append, noNl_encodeCells hn1 hn2 hn3 hn4 hn5 hn6,
    noNl_tagSuffix hcnl hpnl]
  rfl

theorem parseRowLine_opaque {row : Str} (h : rowRegexMatch row = none) :
    parseRowLine row = none := by
  simp [parseRowLine, h]

theorem rowRegexMatch_encodeRow {su : SoftwareUpdate} (h : wellFormedRow su) :
    rowRegexMatch (encodeRow su) =
      some (encodeCells su.markdown.checkmark su.markdown.computer_name
          su.markdown.operation_system su.markdown.package_manager
          su.markdown.upgraded su.markdown.failed,
        su.computer_name, su.package_manager) := by
  obtain ⟨⟨_, hn1, _⟩, ⟨_, hn2, _⟩, ⟨_, hn3, _⟩, ⟨_, hn4, _⟩,
    ⟨_, hn5, _⟩, ⟨_, hn6, _⟩, _, ⟨hcne, hchash, hcnl⟩,
    ⟨hpne, hphash, hpnl⟩⟩ := h
  exact rowRegexMatch_canon _ _ _ (noNl_encodeCells hn1 hn2 hn3 hn4 hn5 hn6)
    hcne (noNl_iff.mpr hcnl) hchash hpne (noNl_iff.mpr hpnl) hphash

theorem filterMap_parseRowLine_opaque (opq : List Str)
    (h : ∀ l ∈ opq, rowRegexMatch l = none) :
    opq.filterMap parseRowLine = [] :=
  List.filterMap_eq_nil_iff.mpr (fun l hl => parseRowLine_opaque (h l hl))

theorem flatMap_buildLine_opaque (us : List SoftwareUpdate) (opq : List Str)
    (h : ∀ l ∈ opq, rowRegexMatch l = none) :
    opq.flatMap (buildLine us) = opq := by
  induction opq with
  | nil => rfl
  | cons l rest ih =>
    rw [List.flatMap_cons,
      buildLine_opaque us l (h l (List.mem_cons_self _ _)),
      ih (fun x hx => h x (List.mem_cons_of_mem _ hx))]
    rfl

/-- C7 (amended): in a document made of regex-opaque lines plus the
canonical lines of two well-formed rows at distinct addresses A and B,
parsing yields exactly the two rows, mutating locates the row at A, and
rebuilding reproduces every opaque line and B's line byte-identically,
in the original order, changing only A's line.  (The restriction to
regex-opaque filler lines is forced: a tagged-but-malformed line is
deleted by the builder, see the counterexample.) -/
theorem C7_isolation_frame (pre mid post : List Str) (rA rB : SoftwareUpdate)
    (hA : wellFormedRow rA) (hB : wellFormedRow rB)
    (hAB : ¬(rA.computer_name = rB.computer_name ∧
             rA.package_manager = rB.package_manager))
    (hpre : ∀ l ∈ pre, rowRegexMatch l = none ∧ noNl l = true)
    (hmid : ∀ l ∈ mid, rowRegexMatch l = none ∧ noNl l = true)
    (hpost : ∀ l ∈ post, rowRegexMatch l = none ∧ noNl l = true)
    (checkmark upgraded failed : Str) :
    getSoftwareUpdateRowsFromBody
        (pyJoin1 '\n' (pre ++ (encodeRow rA :: (mid ++ (encodeRow rB :: post)))))
      = [rA, rB] ∧
    mutateFirst [rA, rB] rA.computer_name rA.package_manager
        checkmark upgraded failed
      = some [mutateRow rA checkmark upgraded failed, rB] ∧
    buildUpdatedBody
        (pyJoin1 '\n' (pre ++ (encodeRow rA :: (mid ++ (encodeRow rB :: post)))))
        [mutateRow rA checkmark upgraded failed, rB]
      = pyJoin1 '\n' (pre ++ (encodeRow (mutateRow rA checkmark upgraded failed)
          :: (mid ++ (encodeRow rB :: post)))) := by
  have hsplit : pySplit1 '\n'
      (pyJoin1 '\n' (pre ++ (encodeRow rA :: (mid ++ (encodeRow rB :: post)))))
      = pre ++ (encodeRow rA :: (mid ++ (encodeRow rB :: post))) := by
    apply pySplit1_pyJoin1
    · intro hnil
      have := congrArg List.length hnil
      simp at this
    · intro l hl
      rw [← noNl_iff]
      rcases List.mem_append.mp hl with h | h
      · exact (hpre l h).2
      · rcases List.mem_cons.mp h with rfl | h
        · exact noNl_encodeRow hA
        · rcases List.mem_append.mp h with h | h
          · exact (hmid l h).2
          · rcases List.mem_cons.mp h with rfl | h
            · exact noNl_encodeRow hB
            · exact (hpost l h).2
  have hparse : getSoftwareUpdateRowsFromBody
      (pyJoin1 '\n' (pre ++ (encodeRow rA :: (mid ++ (encodeRow rB :: post)))))
      = [rA, rB] := by
    rw [getSoftwareUpdateRowsFromBody, hsplit, List.filterMap_append,
      filterMap_parseRowLine_opaque pre (fun l hl => (hpre l hl).1),
      List.filterMap_cons, parseRowLine_canon rA hA, List.filterMap_append,
      filterMap_parseRowLine_opaque mid (fun l hl => (hmid l hl).1),
      List.filterMap_cons, parseRowLine_canon rB hB,
      filterMap_parseRowLine_opaque post (fun l hl => (hpost l hl).1)]
    rfl
  have hmut : mutateFirst [rA, rB] rA.computer_name rA.package_manager
      checkmark upgraded failed
      = some [mutateRow rA checkmark upgraded failed, rB] := by
    simp [mutateFirst]
  have hpBfalse : ((mutateRow rA checkmark upgraded failed).computer_name
        == rB.computer_name &&
      (mutateRow rA checkmark upgraded failed).package_manager
        == rB.package_manager) = false := by
    rw [mutateRow_computer_name, mutateRow_package_manager, Bool.eq_false_iff]
    intro hc
    rw [Bool.and_eq_true, beq_iff_eq, beq_iff_eq] at hc
    exact hAB hc
  have hfindA : List.find? (fun su =>
      su.computer_name == rA.computer_name &&
      su.package_manager == rA.package_manager)
      [mutateRow rA checkmark upgraded failed, rB]
      = some (mutateRow rA checkmark upgraded failed) := by
    simp [List.find?, mutateRow_computer_name, mutateRow_package_manager]
  have hfindB : List.find? (fun su =>
      su.computer_name == rB.computer_name &&
      su.package_manager == rB.package_manager)
      [mutateRow rA checkmark upgraded failed, rB] = some rB := by
    simp only [List.find?, hpBfalse]
    simp
  have hrawB := hB.2.2.2.2.2.2.1
  have hbuild : buildUpdatedBody
      (pyJoin1 '\n' (pre ++ (encodeRow rA :: (mid ++ (encodeRow rB :: post)))))
      [mutateRow rA checkmark upgraded failed, rB]
      = pyJoin1 '\n' (pre ++ (encodeRow (mutateRow rA checkmark upgraded failed)
          :: (mid ++ (encodeRow rB :: post)))) := by
    rw [buildUpdatedBody, hsplit, List.flatMap_append,
      flatMap_buildLine_opaque _ pre (fun l hl => (hpre l hl).1),
      List.flatMap_cons,
      buildLine_found _ _ _ _ _ _ (rowRegexMatch_encodeRow hA) hfindA,
      List.flatMap_append,
      flatMap_buildLine_opaque _ mid (fun l hl => (hmid l hl).1),
      List.flatMap_cons,
      buildLine_found _ _ _ _ _ _ (rowRegexMatch_encodeRow hB) hfindB,
      flatMap_buildLine_opaque _ post (fun l hl => (hpost l hl).1)]
    have heA : (mutateRow rA checkmark upgraded failed).markdown.raw
          ++ tagSuffix rA.computer_name rA.package_manager
        = encodeRow (mutateRow rA checkmark upgraded failed) := by
      rw [encodeRow, mutateRow_computer_name, mutateRow_package_manager]
      rfl
    have heB : rB.markdown.raw ++ tagSuffix rB.computer_name rB.package_manager
        = encodeRow rB := by
      rw [encodeRow, ← hrawB]
    rw [heA, heB]
    rfl
  exact ⟨hparse, hmut, hbuild⟩


/-! ### The retry coordinator under explicit fetch/commit schedules -/

/-- Every attempt of the loop on a document without the requested
address: fetch, parse, fail to locate, raise, and (except on the last
retry index) sleep and start over with a fresh fetch. -/
theorem atomicLoop_missing_row (env : Env) (cn pm status upgraded failed : Str)
    (bodies : Nat → Str) (n : Nat)
    (hfetch : ∀ i, env.fetchResult i = .ok (bodies i))
    (hmiss : ∀ i, ∀ su ∈ getSoftwareUpdateRowsFromBody (bodies i),
        ¬(su.computer_name = cn ∧ su.package_manager = pm)) :
    ∀ k s fc cc sl, s + k = n → 1 ≤ k →
      atomicLoop env cn pm status upgraded failed n (List.range' s k) fc cc sl =
        ⟨.error ("No matching software update row found for ".toList
            ++ cn ++ ('#' :: pm)),
          fc + k, cc,
          sl.reverse ++ (List.range' s (k - 1)).map
            (fun r => RETRY_SLEEP_MULTIPLIER * (r + 1)), none⟩ := by
  intro k
  induction k with
  | zero => omega
  | succ k ih =>
    intro s fc cc sl hsk _
    have hmut : mutateFirst (getSoftwareUpdateRowsFromBody (bodies fc)) cn pm
        ((statusMapping status).getD status) upgraded failed = none :=
      (mutateFirst_eq_none_iff _ _ _ _ _ _).mpr (hmiss fc)
    cases Nat.eq_zero_or_pos k with
    | inl hk0 =>
      subst hk0
      have hlast : s = n - 1 := by omega
      rw [List.range'_succ]
      simp only [List.range'_zero, atomicLoop, hfetch fc, hmut, if_pos hlast]
      simp
    | inr hkpos =>
      have hnot : ¬(s = n - 1) := by omega
      rw [List.range'_succ]
      simp only [atomicLoop, hfetch fc, hmut, if_neg hnot]
      rw [ih (s + 1) (fc + 1) cc (RETRY_SLEEP_MULTIPLIER * (s + 1) :: sl)
        (by omega) (by omega)]
      have hrange : List.range' s (k + 1 - 1) =
          s :: List.range' (s + 1) (k - 1) := by
        have h1 : k + 1 - 1 = (k - 1) + 1 := by omega
        rw [h1, List.range'_succ]
      rw [hrange]
      simp [List.append_assoc]
      omega

/-- C2 (amended): a call whose address is absent from every fetched
document is NOT failed on the first fetch; the row-not-found error is
raised inside the attempt, caught, and retried like any other failure.
With `max_retries = n ≥ 1` the call performs `n` fetches, zero commit
attempts, `n - 1` backoff sleeps, and only then propagates the
row-not-found error. -/
theorem C2_missing_row_is_retried (env : Env)
    (cn pm status upgraded failed : Str) (bodies : Nat → Str) (n : Nat)
    (hn : 1 ≤ n)
    (hfetch : ∀ i, env.fetchResult i = .ok (bodies i))
    (hmiss : ∀ i, ∀ su ∈ getSoftwareUpdateRowsFromBody (bodies i),
        ¬(su.computer_name = cn ∧ su.package_manager = pm)) :
    atomicUpdateWithRetry env cn pm status upgraded failed n =
      ⟨.error ("No matching software update row found for ".toList
          ++ cn ++ ('#' :: pm)),
        n, 0,
        (List.range (n - 1)).map (fun r => RETRY_SLEEP_MULTIPLIER * (r + 1)),
        none⟩ := by
  have h := atomicLoop_missing_row env cn pm status upgraded failed bodies n
    hfetch hmiss n 0 0 0 [] (by omega) hn
  rw [atomicUpdateWithRetry, List.range_eq_range', h]
  simp [List.range_eq_range']

/-- C2 witness: concrete run with `max_retries = 2` against a document
without the `Nope#apt` address. -/
theorem C2_witness :
    atomicUpdateWithRetry envGood "Nope".toList "apt".toList
        "success".toList "5".toList "0".toList 2 =
      ⟨.error ("No matching software update row found for ".toList
          ++ "Nope".toList ++ ('#' :: "apt".toList)),
        2, 0,
        (List.range (2 - 1)).map (fun r => RETRY_SLEEP_MULTIPLIER * (r + 1)),
        none⟩ :=
  C2_missing_row_is_retried envGood "Nope".toList "apt".toList
    "success".toList "5".toList "0".toList (fun _ => goodLine) 2
    (by omega) (fun _ => rfl)
    (fun _ => (by decide :
      ∀ su ∈ getSoftwareUpdateRowsFromBody goodLine,
        ¬(su.computer_name = "Nope".toList ∧
          su.package_manager = "apt".toList)))

/-- C2 counterexample: with the default `max_retries = 3`, an absent
address costs three fetches and two sleeps before the error surfaces —
not one fetch, no sleep and no retry as claimed. -/
theorem C2_counterexample :
    (atomicUpdateWithRetry envGood "Nope".toList "apt".toList
        "success".toList "5".toList "0".toList).fetchCount = 3 ∧
    (atomicUpdateWithRetry envGood "Nope".toList "apt".toList
        "success".toList "5".toList "0".toList).commitCount = 0 ∧
    (atomicUpdateWithRetry envGood "Nope".toList "apt".toList
        "success".toList "5".toList "0".toList).sleeps.length = 2 ∧
    (atomicUpdateWithRetry envGood "Nope".toList "apt".toList
        "success".toList "5".toList "0".toList).outcome =
      .error ("No matching software update row found for Nope#apt".toList) :=
  ⟨rfl, rfl, rfl, rfl⟩

/-- C4: when the commit fails on attempts 1 and 2 and succeeds on
attempt 3 (fetches always succeeding on a document holding the row),
the default-`max_retries` call returns `True` after exactly three
fetch+commit pairs, sleeping twice, the k-th sleep lasting
`RETRY_SLEEP_MULTIPLIER * k`. -/
theorem C4_retry_convergence (env : Env)
    (cn pm status upgraded failed : Str) (bodies : Nat → Str)
    (hfetch : ∀ i, env.fetchResult i = .ok (bodies i))
    (hrow : ∀ i, (mutateFirst (getSoftwareUpdateRowsFromBody (bodies i)) cn pm
        ((statusMapping status).getD status) upgraded failed).isSome)
    (hf0 : (env.patchResult 0).1 ≠ 200)
    (hf1 : (env.patchResult 1).1 ≠ 200)
    (hs2 : (env.patchResult 2).1 = 200) :
    (atomicUpdateWithRetry env cn pm status upgraded failed).outcome
      = .ok true ∧
    (atomicUpdateWithRetry env cn pm status upgraded failed).fetchCount = 3 ∧
    (atomicUpdateWithRetry env cn pm status upgraded failed).commitCount = 3 ∧
    (atomicUpdateWithRetry env cn pm status upgraded failed).sleeps =
      [RETRY_SLEEP_MULTIPLIER * 1, RETRY_SLEEP_MULTIPLIER * 2] := by
  obtain ⟨us0, h0⟩ := Option.isSome_iff_exists.mp (hrow 0)
  obtain ⟨us1, h1⟩ := Option.isSome_iff_exists.mp (hrow 1)
  obtain ⟨us2, h2⟩ := Option.isSome_iff_exists.mp (hrow 2)
  rcases hp0 : env.patchResult 0 with ⟨c0, t0⟩
  rcases hp1 : env.patchResult 1 with ⟨c1, t1⟩
  rcases hp2 : env.patchResult 2 with ⟨c2, t2⟩
  have hc0 : ¬(c0 = 200) := by
    have h := hf0
    rw [hp0] at h
    exact h
  have hc1 : ¬(c1 = 200) := by
    have h := hf1
    rw [hp1] at h
    exact h
  have hc2 : c2 = 200 := by
    have h := hs2
    rw [hp2] at h
    exact h
  have heq : atomicUpdateWithRetry env cn pm status upgraded failed =
      ⟨.ok true, 3, 3,
        [RETRY_SLEEP_MULTIPLIER * 1, RETRY_SLEEP_MULTIPLIER * 2],
        some (buildUpdatedBody (bodies 2) us2)⟩ := by
    rw [atomicUpdateWithRetry, show List.range 3 = [0, 1, 2] from rfl]
    simp only [atomicLoop, hfetch 0, hfetch 1, hfetch 2, h0, h1, h2, hp0, hp1,
      hp2, if_neg hc0, if_neg hc1, hc2, if_pos rfl]
    norm_num
  rw [heq]
  exact ⟨rfl, rfl, rfl, rfl⟩

/-- C4 witness: concrete run against `envFlaky` (409, 409, then 200). -/
theorem C4_witness :
    (atomicUpdateWithRetry envFlaky "Computer1".toList "apt".toList
        "success".toList "5".toList "0".toList).outcome = .ok true ∧
    (atomicUpdateWithRetry envFlaky "Computer1".toList "apt".toList
        "success".toList "5".toList "0".toList).fetchCount = 3 ∧
    (atomicUpdateWithRetry envFlaky "Computer1".toList "apt".toList
        "success".toList "5".toList "0".toList).commitCount = 3 ∧
    (atomicUpdateWithRetry envFlaky "Computer1".toList "apt".toList
        "success".toList "5".toList "0".toList).sleeps =
      [RETRY_SLEEP_MULTIPLIER * 1, RETRY_SLEEP_MULTIPLIER * 2] :=
  C4_retry_convergence envFlaky "Computer1".toList "apt".toList
    "success".toList "5".toList "0".toList (fun _ => goodLine)
    (fun _ => rfl)
    (fun _ => (by decide :
      (mutateFirst (getSoftwareUpdateRowsFromBody goodLine)
        "Computer1".toList "apt".toList
        ((statusMapping "success".toList).getD "success".toList)
        "5".toList "0".toList).isSome = true))
    (by decide) (by decide) (by decide)

/-- C5: when every commit fails and `max_retries = 2`, the call makes
exactly two commit attempts (after two fresh fetches), sleeps once, and
raises an error carrying the text of the last failed PATCH — it neither
returns normally nor tries a third commit. -/
theorem C5_retry_exhaustion (env : Env)
    (cn pm status upgraded failed : Str) (bodies : Nat → Str)
    (hfetch : ∀ i, env.fetchResult i = .ok (bodies i))
    (hrow : ∀ i, (mutateFirst (getSoftwareUpdateRowsFromBody (bodies i)) cn pm
        ((statusMapping status).getD status) upgraded failed).isSome)
    (hfail : ∀ i, (env.patchResult i).1 ≠ 200) :
    atomicUpdateWithRetry env cn pm status upgraded failed 2 =
      ⟨.error ("Failed to update issue body: ".toList
          ++ (env.patchResult 1).2),
        2, 2, [RETRY_SLEEP_MULTIPLIER * 1], none⟩ := by
  obtain ⟨us0, h0⟩ := Option.isSome_iff_exists.mp (hrow 0)
  obtain ⟨us1, h1⟩ := Option.isSome_iff_exists.mp (hrow 1)
  rcases hp0 : env.patchResult 0 with ⟨c0, t0⟩
  rcases hp1 : env.patchResult 1 with ⟨c1, t1⟩
  have hc0 : ¬(c0 = 200) := by
    have h := hfail 0
    rw [hp0] at h
    exact h
  have hc1 : ¬(c1 = 200) := by
    have h := hfail 1
    rw [hp1] at h
    exact h
  rw [atomicUpdateWithRetry, show List.range 2 = [0, 1] from rfl]
  simp only [atomicLoop, hfetch 0, hfetch 1, h0, h1, hp0, hp1, if_neg hc0,
    if_neg hc1]
  norm_num

/-- C5 witness: concrete run against `envAlwaysFail`. -/
theorem C5_witness :
    atomicUpdateWithRetry envAlwaysFail "Computer1".toList "apt".toList
        "failed".toList "0".toList "1".toList 2 =
      ⟨.error ("Failed to update issue body: ".toList
          ++ (envAlwaysFail.patchResult 1).2),
        2, 2, [RETRY_SLEEP_MULTIPLIER * 1], none⟩ :=
  C5_retry_exhaustion envAlwaysFail "Computer1".toList "apt".toList
    "failed".toList "0".toList "1".toList (fun _ => goodLine)
    (fun _ => rfl)
    (fun _ => (by decide :
      (mutateFirst (getSoftwareUpdateRowsFromBody goodLine)
        "Computer1".toList "apt".toList
        ((statusMapping "failed".toList).getD "failed".toList)
        "0".toList "1".toList).isSome = true))
    (fun _ => (by decide : ¬((500 : Nat) = 200)))

/-! ### Claim theorems: parser, codec and builder -/

/-- C1 (amended): far from leaving it unchanged, `_build_updated_body`
DELETES every regex-tagged line whose `(computer_name, package_manager)`
address is absent from the supplied `software_updates`: the loop body
appends nothing for such a line. -/
theorem C1_builder_deletes_missing_address
    (updates : List SoftwareUpdate) (line md cn pm : Str)
    (hmatch : rowRegexMatch line = some (md, cn, pm))
    (habsent : updates.find? (fun su =>
      su.computer_name == cn && su.package_manager == pm) = none) :
    buildLine updates line = [] :=
  buildLine_drop updates line md cn pm hmatch habsent

/-- C1 witness: the malformed five-cell line is tagged, and the builder
emits nothing for it against a collection missing its address. -/
theorem C1_witness :
    rowRegexMatch badCellLine =
      some ("| ⏳ | Computer2 | Linux | apt | 0 |".toList,
        "Computer2".toList, "apt".toList) ∧
    buildLine [] badCellLine = [] :=
  ⟨by decide,
   C1_builder_deletes_missing_address [] badCellLine
     "| ⏳ | Computer2 | Linux | apt | 0 |".toList
     "Computer2".toList "apt".toList (by decide) rfl⟩

/-- C1 counterexample: the two-line document with one correct row and
one wrong-cell-count tagged line parses to exactly one Row (as claimed),
but rebuilding DROPS the malformed line instead of preserving it: the
rebuilt document is the good line alone. -/
theorem C1_counterexample :
    (getSoftwareUpdateRowsFromBody malformedBody).length = 1 ∧
    buildUpdatedBody malformedBody
      (getSoftwareUpdateRowsFromBody malformedBody) = goodLine ∧
    goodLine ≠ malformedBody :=
  ⟨rfl, rfl, by decide⟩

/-- C3 (amended): `update_software_update_row` rejects a status outside
the closed mapping before touching any row (and it makes no network
request at all — it is purely local); `atomic_update_with_retry`
performs NO status validation: with an unknown status it fetches,
substitutes the raw status string as the glyph via
`status_mapping.get(status, status)`, and commits. -/
theorem C3_status_validation_asymmetry (status : Str)
    (hinv : statusMapping status = none) :
    (∀ (updates : List SoftwareUpdate) (cn pm upgraded failed : Str),
      updateSoftwareUpdateRow updates cn pm status upgraded failed =
        .error ("Invalid status: ".toList ++ status)) ∧
    (∀ (env : Env) (cn pm upgraded failed : Str) (bodies : Nat → Str)
      (us0 : List SoftwareUpdate),
      (∀ i, env.fetchResult i = .ok (bodies i)) →
      mutateFirst (getSoftwareUpdateRowsFromBody (bodies 0)) cn pm status
        upgraded failed = some us0 →
      (env.patchResult 0).1 = 200 →
      atomicUpdateWithRetry env cn pm status upgraded failed =
        ⟨.ok true, 1, 1, [], some (buildUpdatedBody (bodies 0) us0)⟩) := by
  constructor
  · intro updates cn pm upgraded failed
    simp only [updateSoftwareUpdateRow, hinv]
  · intro env cn pm upgraded failed bodies us0 hfetch hrow hp
    rcases hp0 : env.patchResult 0 with ⟨c0, t0⟩
    have hc0 : c0 = 200 := by
      have h := hp
      rw [hp0] at h
      exact h
    have hglyph : (statusMapping status).getD status = status := by
      rw [hinv]
      rfl
    rw [atomicUpdateWithRetry, show List.range 3 = [0, 1, 2] from rfl]
    simp only [atomicLoop, hfetch 0, hglyph, hrow, hp0, hc0, if_pos rfl]
    rfl

/-- C3 witness: the status `bogus` is outside the mapping; the local
update path rejects it, while the atomic path commits it. -/
theorem C3_witness :
    statusMapping "bogus".toList = none ∧
    updateSoftwareUpdateRow [] "c".toList "p".toList "bogus".toList [] [] =
      .error ("Invalid status: ".toList ++ "bogus".toList) ∧
    atomicUpdateWithRetry envGood "Computer1".toList "apt".toList
        "bogus".toList "5".toList "0".toList =
      ⟨.ok true, 1, 1, [], some (buildUpdatedBody goodLine updatesBogus)⟩ :=
  ⟨rfl,
   (C3_status_validation_asymmetry "bogus".toList rfl).1 []
     "c".toList "p".toList [] [],
   (C3_status_validation_asymmetry "bogus".toList rfl).2 envGood
     "Computer1".toList "apt".toList "5".toList "0".toList
     (fun _ => goodLine) updatesBogus (fun _ => rfl) (by decide) rfl⟩

/-- C3 counterexample: a status outside the closed set is NOT rejected
by the atomic update call: the call fetches, commits, returns `True`,
and the committed document carries the raw status string as its glyph
cell. -/
theorem C3_counterexample :
    statusMapping "bogus".toList = none ∧
    (atomicUpdateWithRetry envGood "Computer1".toList "apt".toList
        "bogus".toList "5".toList "0".toList).outcome = .ok true ∧
    (atomicUpdateWithRetry envGood "Computer1".toList "apt".toList
        "bogus".toList "5".toList "0".toList).fetchCount = 1 ∧
    (atomicUpdateWithRetry envGood "Computer1".toList "apt".toList
        "bogus".toList "5".toList "0".toList).commitCount = 1 ∧
    (atomicUpdateWithRetry envGood "Computer1".toList "apt".toList
        "bogus".toList "5".toList "0".toList).finalBody =
      some ("| bogus | Computer1 | Linux | apt | 5 | 0 | <!-- update-softwares#Computer1#apt -->".toList) :=
  ⟨rfl, rfl, rfl, rfl, rfl⟩

/-- C6 (amended): decode after encode is the identity on every
well-formed Row — six cell-clean cells, canonical `raw`, and address
keys that are nonempty, `#`-free and newline-free. -/
theorem C6_roundtrip (su : SoftwareUpdate) (h : wellFormedRow su) :
    parseRowLine (encodeRow su) = some su :=
  parseRowLine_canon su h

/-- C6 witness: the round trip on the concrete row of `goodLine`. -/
theorem C6_witness :
    wellFormedRow suGood ∧ parseRowLine (encodeRow suGood) = some suGood :=
  ⟨by decide, C6_roundtrip suGood (by decide)⟩

/-- C6 counterexample: a row whose six cells are stripped and pipe-free
(and whose `raw` is canonical) still fails the round trip when its
package-manager key contains `#`: the greedy regex reassigns the key
split, so decode returns a different row. -/
theorem C6_counterexample :
    wellFormedCell suHashKey.markdown.checkmark ∧
    wellFormedCell suHashKey.markdown.computer_name ∧
    wellFormedCell suHashKey.markdown.operation_system ∧
    wellFormedCell suHashKey.markdown.package_manager ∧
    wellFormedCell suHashKey.markdown.upgraded ∧
    wellFormedCell suHashKey.markdown.failed ∧
    suHashKey.markdown.raw = encodeCells suHashKey.markdown.checkmark
      suHashKey.markdown.computer_name suHashKey.markdown.operation_system
      suHashKey.markdown.package_manager suHashKey.markdown.upgraded
      suHashKey.markdown.failed ∧
    parseRowLine (encodeRow suHashKey) ≠ some suHashKey := by
  decide

/-- C8 (code bug): the parser accepts ONLY six-cell table prefixes
(`len(split) == 8`); the seven-cell EOL-column lines that the
repository's own test `test_parse_body_with_os_eol_column` feeds in are
all silently skipped, so that body parses to zero rows. -/
theorem C8_seven_cell_rows_rejected :
    rowRegexMatch eolLine1 ≠ none ∧
    parseRowLine eolLine1 = none ∧
    parseRowLine goodLine ≠ none ∧
    getSoftwareUpdateRowsFromBody eolBody = [] :=
  ⟨by decide, rfl, by decide, rfl⟩

/-- C9 (code bug): `atomic_update_with_retry` takes no EOL argument,
and on the EOL-format body of the repository's own test
`test_atomic_update_with_os_eol` it cannot even locate the row: it
raises row-not-found after three fetches and zero commits, where the
test expects a successful update that carries the EOL annotation. -/
theorem C9_eol_row_cannot_be_updated :
    (atomicUpdateWithRetry envEol "Computer1".toList "apt".toList
        "success".toList "5".toList "0".toList).outcome =
      .error ("No matching software update row found for Computer1#apt".toList) ∧
    (atomicUpdateWithRetry envEol "Computer1".toList "apt".toList
        "success".toList "5".toList "0".toList).commitCount = 0 ∧
    (atomicUpdateWithRetry envEol "Computer1".toList "apt".toList
        "success".toList "5".toList "0".toList).fetchCount = 3 :=
  ⟨rfl, rfl, rfl⟩

/-- C10 (amended): provided the status is in the closed mapping,
`update_software_update_row` returns `False` leaving the collection
unchanged when no row matches the address, and returns `True` after
mutating exactly the first matching row (checkmark, upgraded, failed,
raw) and no other element. -/
theorem C10_update_row_first_match (updates : List SoftwareUpdate)
    (cn pm status upgraded failed glyph : Str)
    (hst : statusMapping status = some glyph) :
    ((∀ su ∈ updates, ¬(su.computer_name = cn ∧ su.package_manager = pm)) →
      updateSoftwareUpdateRow updates cn pm status upgraded failed =
        .ok (false, updates)) ∧
    (∀ (l1 : List SoftwareUpdate) (su : SoftwareUpdate)
      (l2 : List SoftwareUpdate),
      updates = l1 ++ su :: l2 →
      (su.computer_name = cn ∧ su.package_manager = pm) →
      (∀ t ∈ l1, ¬(t.computer_name = cn ∧ t.package_manager = pm)) →
      updateSoftwareUpdateRow updates cn pm status upgraded failed =
        .ok (true, l1 ++ mutateRow su glyph upgraded failed :: l2)) := by
  constructor
  · intro hnone
    have h := (mutateFirst_eq_none_iff updates cn pm glyph
      upgraded failed).mpr hnone
    simp only [updateSoftwareUpdateRow, hst, h]
  · intro l1 su l2 hupd hsu hl1
    subst hupd
    have h := mutateFirst_append l1 l2 su cn pm glyph upgraded failed hsu hl1
    simp only [updateSoftwareUpdateRow, hst, h]

/-- C10 witness: concrete hit and miss against a one-row collection. -/
theorem C10_witness :
    statusMapping "success".toList = some "✅".toList ∧
    updateSoftwareUpdateRow [suGood] "Computer1".toList "apt".toList
        "success".toList "5".toList "0".toList =
      .ok (true, [mutateRow suGood "✅".toList "5".toList "0".toList]) ∧
    updateSoftwareUpdateRow [suGood] "Nope".toList "apt".toList
        "success".toList "5".toList "0".toList =
      .ok (false, [suGood]) :=
  ⟨rfl,
   (C10_update_row_first_match [suGood] "Computer1".toList "apt".toList
     "success".toList "5".toList "0".toList "✅".toList rfl).2
     [] suGood [] rfl (by decide) (by decide),
   (C10_update_row_first_match [suGood] "Nope".toList "apt".toList
     "success".toList "5".toList "0".toList "✅".toList rfl).1
     (by decide)⟩

/-- C10 counterexample: with a status outside the mapping the method
raises instead of returning `False`, even though no row matches. -/
theorem C10_counterexample :
    updateSoftwareUpdateRow [] "c".toList "p".toList "bogus".toList [] [] =
      .error ("Invalid status: ".toList ++ "bogus".toList) ∧
    updateSoftwareUpdateRow [] "c".toList "p".toList "bogus".toList [] [] ≠
      .ok (false, []) := by
  refine ⟨rfl, ?_⟩
  intro h
  rw [show updateSoftwareUpdateRow [] "c".toList "p".toList
    "bogus".toList [] [] =
      .error ("Invalid status: ".toList ++ "bogus".toList) from rfl] at h
  exact Except.noConfusion h


/-- C7 witness: concrete two-row document with one opaque heading line,
mutating the `Computer1#apt` row. -/
theorem C7_witness :
    getSoftwareUpdateRowsFromBody
        (pyJoin1 '\n' ([] ++ (encodeRow suGood ::
          (["# Update Status".toList] ++ (encodeRow suScoop :: [])))))
      = [suGood, suScoop] ∧
    mutateFirst [suGood, suScoop] suGood.computer_name
        suGood.package_manager "✅".toList "5".toList "0".toList
      = some [mutateRow suGood "✅".toList "5".toList "0".toList, suScoop] ∧
    buildUpdatedBody
        (pyJoin1 '\n' ([] ++ (encodeRow suGood ::
          (["# Update Status".toList] ++ (encodeRow suScoop :: [])))))
        [mutateRow suGood "✅".toList "5".toList "0".toList, suScoop]
      = pyJoin1 '\n' ([] ++
          (encodeRow (mutateRow suGood "✅".toList "5".toList "0".toList) ::
          (["# Update Status".toList] ++ (encodeRow suScoop :: [])))) :=
  C7_isolation_frame [] ["# Update Status".toList] [] suGood suScoop
    (by decide) (by decide) (by decide) (by decide) (by decide) (by decide)
    "✅".toList "5".toList "0".toList

/-- C7 counterexample: a document holding rows A and B plus a
wrong-cell-count tagged line (an opaque line in the spec's sense, since
it decodes to no Row).  Mutating A and rebuilding deletes that line, so
the result is NOT identical to the original outside A's line. -/
theorem C7_counterexample :
    updatesAB.length = 2 ∧
    badCellLine ∈ pySplit1 '\n' bodyAB ∧
    rowRegexMatch badCellLine ≠ none ∧
    buildUpdatedBody bodyAB mutatedAB =
      "| ✅ | Computer1 | Linux | apt | 5 | 0 | <!-- update-softwares#Computer1#apt -->".toList
        ++ '\n' :: scoopLine ∧
    badCellLine ∉ pySplit1 '\n' (buildUpdatedBody bodyAB mutatedAB) :=
  ⟨rfl, by decide, by decide, rfl, by decide⟩

end UpdateSoftwares
